import Mathlib

/-!
Verification of `metricflow_semantics/sql/sql_table.py`.

Shallow embedding: Python strings are modelled as lists of characters
(`PyStr`), Python `Optional[str]` as `Option PyStr`, and raised exceptions
as the `Except` monad.  The definitions below mirror the source module:
the `SqlTable` frozen dataclass with its `__post_init__` validation, the
`from_string` parser, the `from_node_relation` adapter, the `sql` rendering
property, and the dataclass-generated `__eq__` / `__lt__` comparisons.
-/

deriving instance DecidableEq for Except

/-- A Python string, modelled as its list of characters. -/
abbrev PyStr := List Char

/-- Conversion from a Lean string literal to the `PyStr` model. -/
def pstr (s : String) : PyStr := s.data

/-- Python errors raised by the module: `ValueError` (from `__post_init__`)
and `RuntimeError` (from `from_string`), each carrying its message. -/
inductive PyError where
  | valueError : PyStr → PyError
  | runtimeError : PyStr → PyError
deriving DecidableEq

/-- Python truthiness of an `Optional[str]` value: `None` and the empty
string are falsy, every other string is truthy. -/
def truthy : Option PyStr → Bool
  | none => false
  | some s => !s.isEmpty

/-- Python `a or b` on `Optional[str]` values: `a` if truthy, else `b`. -/
def pyOr (a b : Option PyStr) : Option PyStr := if truthy a then a else b

/-- Python `a or b` where the fallback `b` is a plain string, as in
`getattr(node_relation, "relation_name", None) or ""`. -/
def pyOrStr (a : Option PyStr) (b : PyStr) : PyStr :=
  match pyOr a (some b) with
  | some s => s
  | none => b

/-- Python `s.split(".")`: split on every literal dot.  The result always
has one more element than the number of dots, so it is never empty; in
particular the empty string splits into `[[]]`. -/
def splitDot : PyStr → List PyStr
  | [] => [[]]
  | c :: cs =>
    match splitDot cs with
    | [] => [[]]
    | p :: ps => if c = '.' then [] :: p :: ps else (c :: p) :: ps

/-- Python `".".join(items)`. -/
def joinDot : List PyStr → PyStr
  | [] => []
  | [p] => p
  | p :: q :: rest => p ++ '.' :: joinDot (q :: rest)

/-- The `SqlTableType` enumeration of the source (`"table"` / `"view"`). -/
inductive SqlTableType where
  | TABLE
  | VIEW
deriving DecidableEq

/-- The `SqlTable` frozen dataclass, fields in declaration order. -/
structure SqlTable where
  schema_name : Option PyStr
  table_name : PyStr
  db_name : Option PyStr := none
  table_type : SqlTableType := .TABLE
deriving DecidableEq

/-- Python `repr` of an `Optional[str]` as interpolated by the f-string in
`__post_init__` (`None`, or the string in quotes). -/
def pyReprOpt : Option PyStr → PyStr
  | none => pstr ("None")
  | some s => '\x27' :: s ++ ['\x27']

/-- Dataclass construction: builds the frozen instance after running
`__post_init__`, which raises `ValueError` when `db_name` is not `None`
while `schema_name` is `None`. -/
def SqlTable.make (schema_name : Option PyStr) (table_name : PyStr)
    (db_name : Option PyStr) (table_type : SqlTableType) : Except PyError SqlTable :=
  if db_name ≠ none ∧ schema_name = none then
    .error (.valueError (pstr ("self.db_name=") ++ pyReprOpt db_name ++
      pstr (" when it should be specified with self.schema_name=") ++ pyReprOpt schema_name))
  else
    .ok ⟨schema_name, table_name, db_name, table_type⟩

/-- The `RuntimeError` message of `from_string` for an invalid input. -/
def invalidTableMsg (sql_str : PyStr) : PyStr :=
  pstr ("Invalid input for a SQL table, expected form \x27<schema>.<table>\x27 or \x27<db>.<schema>.<table>\x27 but got: ")
    ++ sql_str

/-- `SqlTable.from_string`: split on dots; 2 segments give a schema-qualified
table, 3 segments a db-qualified one, any other count raises `RuntimeError`. -/
def SqlTable.from_string (sql_str : PyStr) : Except PyError SqlTable :=
  match splitDot sql_str with
  | [a, b] => SqlTable.make (some a) b none .TABLE
  | [d, s, t] => SqlTable.make (some s) t (some d) .TABLE
  | _ => .error (.runtimeError (invalidTableMsg sql_str))

/-- The external node-relation descriptor: every attribute probed via
`getattr` by `from_node_relation`, each possibly absent (modelling both a
missing attribute and an attribute set to `None`).  The Python attribute
`alias` is a Lean keyword, hence the field name `alias_`. -/
structure NodeRelation where
  relation_name : Option PyStr := none
  schema_name : Option PyStr := none
  schema : Option PyStr := none
  database : Option PyStr := none
  db_name : Option PyStr := none
  database_name : Option PyStr := none
  alias_ : Option PyStr := none
  identifier : Option PyStr := none
deriving DecidableEq

/-- Local `relation_name` of `from_node_relation`:
`getattr(node_relation, "relation_name", None) or ""`. -/
def NodeRelation.relName (nr : NodeRelation) : PyStr := pyOrStr nr.relation_name []

/-- Local `schema` of `from_node_relation`:
`getattr(..., "schema_name", None) or getattr(..., "schema", None)`. -/
def NodeRelation.schemaF (nr : NodeRelation) : Option PyStr :=
  pyOr nr.schema_name nr.schema

/-- Local `db` of `from_node_relation`: first truthy among the attributes
`database`, `db_name`, `database_name`. -/
def NodeRelation.dbF (nr : NodeRelation) : Option PyStr :=
  pyOr (pyOr nr.database nr.db_name) nr.database_name

/-- Local `identifier` of `from_node_relation`: first truthy among the
attributes `alias`, `identifier`, `relation_name`. -/
def NodeRelation.idF (nr : NodeRelation) : Option PyStr :=
  pyOr (pyOr nr.alias_ nr.identifier) nr.relation_name

/-- `SqlTable.from_node_relation`: parse a dotted `relation_name` directly;
otherwise assemble from the components by descending completeness, falling
back to parsing the raw `relation_name`. -/
def SqlTable.from_node_relation (nr : NodeRelation) : Except PyError SqlTable :=
  if nr.relName.contains '.' then
    SqlTable.from_string nr.relName
  else if truthy nr.dbF && truthy nr.schemaF && truthy nr.idF then
    SqlTable.make nr.schemaF (nr.idF.getD []) nr.dbF .TABLE
  else if truthy nr.schemaF && truthy nr.idF then
    SqlTable.make nr.schemaF (nr.idF.getD []) none .TABLE
  else if truthy nr.idF then
    SqlTable.make none (nr.idF.getD []) none .TABLE
  else
    SqlTable.from_string nr.relName

/-- The `sql` property: join the present components with dots, in the order
`db_name`, `schema_name`, `table_name`. -/
def SqlTable.sql (t : SqlTable) : PyStr :=
  joinDot ((match t.db_name with | some d => [d] | none => []) ++
           (match t.schema_name with | some s => [s] | none => []) ++
           [t.table_name])

/-- The dataclass-generated `__eq__`: comparison of the field tuples. -/
def pyEq (t1 t2 : SqlTable) : Bool :=
  (t1.schema_name == t2.schema_name) && (t1.table_name == t2.table_name) &&
  (t1.db_name == t2.db_name) && (t1.table_type == t2.table_type)

/-- Boolean form of Python `<` on characters (by code point). -/
def charLt (a b : Char) : Bool := decide (a < b)

/-- Generic lexicographic strict comparison of lists, the semantics of
Python `<` on sequences: skip equal elements, decide at the first
difference, and a strict prefix is smaller. -/
def lexListLt {α : Type} [DecidableEq α] (lt : α → α → Bool) : List α → List α → Bool
  | [], [] => false
  | [], _ :: _ => true
  | _ :: _, [] => false
  | a :: as, b :: bs => if a = b then lexListLt lt as bs else lt a b

/-- Python `<` on strings: lexicographic by code point. -/
def pyStrLt : PyStr → PyStr → Bool := lexListLt charLt

/-- Python `<` on lists of strings (used to state what the dataclass tuple
comparison computes on comparable inputs). -/
def pyListLt : List PyStr → List PyStr → Bool := lexListLt pyStrLt

/-- Python `<` on two `Optional[str]` field values that were found unequal:
two strings compare lexicographically; any comparison involving `None`
raises `TypeError` (modelled as `Except.error ()`). -/
def optLt : Option PyStr → Option PyStr → Except Unit Bool
  | some a, some b => .ok (pyStrLt a b)
  | _, _ => .error ()

/-- The dataclass-generated `__lt__` (`order=True`): Python tuple comparison
over the fields in declaration order.  Equal fields are skipped; the first
unequal field is compared with `<`, which raises `TypeError` for `None`
versus a string and for two distinct `SqlTableType` members (Python enums
define no `__lt__`); equal tuples give `False`. -/
def pyLt (t1 t2 : SqlTable) : Except Unit Bool :=
  if t1.schema_name = t2.schema_name then
    if t1.table_name = t2.table_name then
      if t1.db_name = t2.db_name then
        if t1.table_type = t2.table_type then .ok false
        else .error ()
      else optLt t1.db_name t2.db_name
    else .ok (pyStrLt t1.table_name t2.table_name)
  else optLt t1.schema_name t2.schema_name

/-- `e` is an error. -/
def isErr {α : Type} : Except PyError α → Bool
  | .error _ => true
  | .ok _ => false

/-- Predicate taken from the specification wording of the error condition:
the string splits on dots into exactly 2 or 3 segments, all non-empty. -/
def splitsInto23NonEmpty (s : PyStr) : Bool :=
  ((splitDot s).length == 2 || (splitDot s).length == 3) &&
  (splitDot s).all (fun p => !p.isEmpty)

/-- `sub` occurs as a contiguous substring of `s`. -/
def containsSub (sub s : PyStr) : Prop := ∃ pre post, s = pre ++ sub ++ post

/-- Two tables are comparison-compatible: same presence pattern on the two
optional fields and the same table type. -/
def Compat (t1 t2 : SqlTable) : Prop :=
  t1.schema_name.isSome = t2.schema_name.isSome ∧
  t1.db_name.isSome = t2.db_name.isSome ∧ t1.table_type = t2.table_type

/-- The string components inspected by the tuple comparison, an absent
option read as the empty string (only used on comparison-compatible
tables, where this reading is injective). -/
def key (t : SqlTable) : List PyStr :=
  [t.schema_name.getD [], t.table_name, t.db_name.getD []]

/-! ### Helper lemmas about splitting and joining -/

theorem splitDot_ne_nil (s : PyStr) : splitDot s ≠ [] := by
  cases s with
  | nil => simp [splitDot]
  | cons c cs =>
    unfold splitDot
    cases splitDot cs with
    | nil => simp
    | cons p ps => by_cases hc : c = '.' <;> simp [hc]

theorem splitDot_no_dot {p : PyStr} (h : '.' ∉ p) : splitDot p = [p] := by
  induction p with
  | nil => rfl
  | cons c cs ih =>
    simp only [List.mem_cons, not_or] at h
    unfold splitDot
    rw [ih h.2]
    simp [Ne.symm h.1]

theorem splitDot_dot_append {p : PyStr} (rest : PyStr) (h : '.' ∉ p) :
    splitDot (p ++ '.' :: rest) = p :: splitDot rest := by
  induction p with
  | nil =>
    obtain ⟨q, qs, hr⟩ : ∃ q qs, splitDot rest = q :: qs := by
      cases hr : splitDot rest with
      | nil => exact absurd hr (splitDot_ne_nil rest)
      | cons q qs => exact ⟨q, qs, rfl⟩
    simp [splitDot, hr]
  | cons c cs ih =>
    simp only [List.mem_cons, not_or] at h
    simp only [List.cons_append, splitDot, List.append_eq]
    rw [ih h.2]
    simp [Ne.symm h.1]

/-! ### Helper lemmas about construction and parsing -/

theorem make_ok_invariant {s d : Option PyStr} {tn : PyStr} {ty : SqlTableType}
    {t : SqlTable} (h : SqlTable.make s tn d ty = .ok t) :
    t = ⟨s, tn, d, ty⟩ ∧ ¬(d ≠ none ∧ s = none) := by
  by_cases hc : d ≠ none ∧ s = none
  · simp [SqlTable.make, hc] at h
  · simp [SqlTable.make, hc] at h
    exact ⟨h.symm, hc⟩

theorem make_ok_of_schema_some (a tn : PyStr) (d : Option PyStr) (ty : SqlTableType) :
    SqlTable.make (some a) tn d ty = .ok ⟨some a, tn, d, ty⟩ := by
  simp [SqlTable.make]

theorem make_ok_of_db_none (s : Option PyStr) (tn : PyStr) (ty : SqlTableType) :
    SqlTable.make s tn none ty = .ok ⟨s, tn, none, ty⟩ := by
  simp [SqlTable.make]

theorem from_string_two {s a b : PyStr} (h : splitDot s = [a, b]) :
    SqlTable.from_string s = .ok ⟨some a, b, none, .TABLE⟩ := by
  unfold SqlTable.from_string
  rw [h]
  exact make_ok_of_db_none (some a) b .TABLE

theorem from_string_three {s d sc t : PyStr} (h : splitDot s = [d, sc, t]) :
    SqlTable.from_string s = .ok ⟨some sc, t, some d, .TABLE⟩ := by
  unfold SqlTable.from_string
  rw [h]
  exact make_ok_of_schema_some sc t (some d) .TABLE

theorem from_string_err {s : PyStr} (h2 : (splitDot s).length ≠ 2)
    (h3 : (splitDot s).length ≠ 3) :
    SqlTable.from_string s = .error (.runtimeError (invalidTableMsg s)) := by
  unfold SqlTable.from_string
  cases hs : splitDot s with
  | nil => rfl
  | cons a l1 =>
    cases l1 with
    | nil => rfl
    | cons b l2 =>
      cases l2 with
      | nil => rw [hs] at h2; simp at h2
      | cons c l3 =>
        cases l3 with
        | nil => rw [hs] at h3; simp at h3
        | cons d l4 => rfl

theorem from_string_ok_type {s : PyStr} {t : SqlTable}
    (h : SqlTable.from_string s = .ok t) : t.table_type = .TABLE := by
  unfold SqlTable.from_string at h
  split at h
  · obtain ⟨ht, _⟩ := make_ok_invariant h; subst ht; rfl
  · obtain ⟨ht, _⟩ := make_ok_invariant h; subst ht; rfl
  · cases h

/-! ### Helper lemmas about truthiness and the adapter -/

theorem truthy_some {o : Option PyStr} (h : truthy o = true) :
    ∃ s, o = some s ∧ s ≠ [] := by
  match o with
  | none => exact absurd h (by simp [truthy])
  | some [] => exact absurd h (by simp [truthy])
  | some (c :: cs) => exact ⟨c :: cs, rfl, by simp⟩

theorem truthy_pyOr (a b : Option PyStr) :
    truthy (pyOr a b) = (truthy a || truthy b) := by
  unfold pyOr
  cases h : truthy a <;> simp [h]

theorem relName_empty_of_id_falsy {nr : NodeRelation} (h : truthy nr.idF = false) :
    nr.relName = [] := by
  have h1 : truthy nr.relation_name = false := by
    unfold NodeRelation.idF at h
    rw [truthy_pyOr] at h
    simp at h
    exact h.2
  simp [NodeRelation.relName, pyOrStr, pyOr, h1]

theorem from_node_relation_ok_type {nr : NodeRelation} {t : SqlTable}
    (h : SqlTable.from_node_relation nr = .ok t) : t.table_type = .TABLE := by
  unfold SqlTable.from_node_relation at h
  split at h
  · exact from_string_ok_type h
  · split at h
    · obtain ⟨ht, _⟩ := make_ok_invariant h; subst ht; rfl
    · split at h
      · obtain ⟨ht, _⟩ := make_ok_invariant h; subst ht; rfl
      · split at h
        · obtain ⟨ht, _⟩ := make_ok_invariant h; subst ht; rfl
        · exact from_string_ok_type h

/-! ### Strict-order lemmas for the lexicographic comparisons -/

theorem lexListLt_irrefl {α : Type} [DecidableEq α] {lt : α → α → Bool}
    (hirr : ∀ a, lt a a = false) : ∀ l, lexListLt lt l l = false
  | [] => rfl
  | a :: as => by simp [lexListLt, lexListLt_irrefl hirr as]

theorem lexListLt_trans {α : Type} [DecidableEq α] {lt : α → α → Bool}
    (hirr : ∀ a, lt a a = false)
    (htrans : ∀ a b c, lt a b = true → lt b c = true → lt a c = true) :
    ∀ l1 l2 l3, lexListLt lt l1 l2 = true → lexListLt lt l2 l3 = true →
      lexListLt lt l1 l3 = true := by
  intro l1
  induction l1 with
  | nil =>
    intro l2 l3 h1 h2
    cases l2 with
    | nil => simp [lexListLt] at h1
    | cons b bs =>
      cases l3 with
      | nil => simp [lexListLt] at h2
      | cons c cs => simp [lexListLt]
  | cons a as ih =>
    intro l2 l3 h1 h2
    cases l2 with
    | nil => simp [lexListLt] at h1
    | cons b bs =>
      cases l3 with
      | nil => simp [lexListLt] at h2
      | cons c cs =>
        simp only [lexListLt] at h1 h2 ⊢
        by_cases hab : a = b
        · subst hab
          rw [if_pos rfl] at h1
          by_cases hbc : a = c
          · subst hbc
            rw [if_pos rfl] at h2 ⊢
            exact ih bs cs h1 h2
          · rw [if_neg hbc] at h2 ⊢
            exact h2
        · rw [if_neg hab] at h1
          by_cases hbc : b = c
          · subst hbc
            rw [if_neg hab]
            exact h1
          · rw [if_neg hbc] at h2
            have hac : lt a c = true := htrans a b c h1 h2
            have hne : a ≠ c := by
              intro he
              subst he
              have hx := htrans a b a h1 h2
              rw [hirr a] at hx
              cases hx
            rw [if_neg hne]
            exact hac

theorem lexListLt_conn {α : Type} [DecidableEq α] {lt : α → α → Bool}
    (hconn : ∀ a b, lt a b = false → lt b a = false → a = b) :
    ∀ l1 l2, lexListLt lt l1 l2 = false → lexListLt lt l2 l1 = false → l1 = l2 := by
  intro l1
  induction l1 with
  | nil =>
    intro l2 h1 h2
    cases l2 with
    | nil => rfl
    | cons b bs => simp [lexListLt] at h1
  | cons a as ih =>
    intro l2 h1 h2
    cases l2 with
    | nil => simp [lexListLt] at h2
    | cons b bs =>
      simp only [lexListLt] at h1 h2
      by_cases hab : a = b
      · subst hab
        rw [if_pos rfl] at h1 h2
        rw [ih bs h1 h2]
      · rw [if_neg hab] at h1
        rw [if_neg (Ne.symm hab)] at h2
        exact absurd (hconn a b h1 h2) hab

theorem lexListLt_asymm {α : Type} [DecidableEq α] {lt : α → α → Bool}
    (hirr : ∀ a, lt a a = false)
    (htrans : ∀ a b c, lt a b = true → lt b c = true → lt a c = true) :
    ∀ l1 l2, lexListLt lt l1 l2 = true → lexListLt lt l2 l1 = false := by
  intro l1 l2 h1
  by_contra h2
  rw [Bool.not_eq_false] at h2
  have hx := lexListLt_trans hirr htrans l1 l2 l1 h1 h2
  rw [lexListLt_irrefl hirr l1] at hx
  cases hx

theorem charLt_irrefl (a : Char) : charLt a a = false := by simp [charLt]

theorem charLt_trans (a b c : Char) :
    charLt a b = true → charLt b c = true → charLt a c = true := by
  simp [charLt]
  exact lt_trans

theorem charLt_conn (a b : Char) :
    charLt a b = false → charLt b a = false → a = b := by
  simp [charLt]
  intro h1 h2
  exact le_antisymm h2 h1

theorem pyStrLt_irrefl (l : PyStr) : pyStrLt l l = false :=
  lexListLt_irrefl charLt_irrefl l

theorem pyStrLt_trans (l1 l2 l3 : PyStr) :
    pyStrLt l1 l2 = true → pyStrLt l2 l3 = true → pyStrLt l1 l3 = true :=
  lexListLt_trans charLt_irrefl charLt_trans l1 l2 l3

theorem pyStrLt_conn (l1 l2 : PyStr) :
    pyStrLt l1 l2 = false → pyStrLt l2 l1 = false → l1 = l2 :=
  lexListLt_conn charLt_conn l1 l2

theorem pyListLt_irrefl (l : List PyStr) : pyListLt l l = false :=
  lexListLt_irrefl pyStrLt_irrefl l

theorem pyListLt_trans (l1 l2 l3 : List PyStr) :
    pyListLt l1 l2 = true → pyListLt l2 l3 = true → pyListLt l1 l3 = true :=
  lexListLt_trans pyStrLt_irrefl pyStrLt_trans l1 l2 l3

theorem pyListLt_conn (l1 l2 : List PyStr) :
    pyListLt l1 l2 = false → pyListLt l2 l1 = false → l1 = l2 :=
  lexListLt_conn pyStrLt_conn l1 l2

theorem pyListLt_asymm (l1 l2 : List PyStr) :
    pyListLt l1 l2 = true → pyListLt l2 l1 = false :=
  lexListLt_asymm pyStrLt_irrefl pyStrLt_trans l1 l2

/-! ### The tuple comparison on comparison-compatible tables -/

theorem compat_refl (t : SqlTable) : Compat t t := ⟨rfl, rfl, rfl⟩

theorem compat_symm {t1 t2 : SqlTable} (h : Compat t1 t2) : Compat t2 t1 :=
  ⟨h.1.symm, h.2.1.symm, h.2.2.symm⟩

theorem compat_trans {t1 t2 t3 : SqlTable} (h1 : Compat t1 t2) (h2 : Compat t2 t3) :
    Compat t1 t3 :=
  ⟨h1.1.trans h2.1, h1.2.1.trans h2.2.1, h1.2.2.trans h2.2.2⟩

theorem isSome_eq_cases {o1 o2 : Option PyStr} (h : o1.isSome = o2.isSome) :
    (o1 = none ∧ o2 = none) ∨ (∃ a b, o1 = some a ∧ o2 = some b) := by
  cases o1 <;> cases o2 <;> simp_all

theorem pyLt_compat {t1 t2 : SqlTable} (h : Compat t1 t2) :
    pyLt t1 t2 = .ok (pyListLt (key t1) (key t2)) := by
  obtain ⟨hs, hd, hty⟩ := h
  obtain ⟨s1, tn1, d1, ty1⟩ := t1
  obtain ⟨s2, tn2, d2, ty2⟩ := t2
  simp only at hs hd hty
  subst hty
  rcases isSome_eq_cases hs with ⟨h1, h2⟩ | ⟨a, b, h1, h2⟩ <;> subst h1 <;> subst h2 <;>
    rcases isSome_eq_cases hd with ⟨h3, h4⟩ | ⟨x, y, h3, h4⟩ <;> subst h3 <;> subst h4
  · by_cases htn : tn1 = tn2 <;>
      simp [pyLt, key, pyListLt, lexListLt, optLt, htn]
  · by_cases htn : tn1 = tn2 <;> by_cases hxy : x = y <;>
      simp [pyLt, key, pyListLt, lexListLt, optLt, htn, hxy]
  · by_cases hab : a = b <;> by_cases htn : tn1 = tn2 <;>
      simp [pyLt, key, pyListLt, lexListLt, optLt, hab, htn]
  · by_cases hab : a = b <;> by_cases htn : tn1 = tn2 <;> by_cases hxy : x = y <;>
      simp [pyLt, key, pyListLt, lexListLt, optLt, hab, htn, hxy]

theorem key_inj {t1 t2 : SqlTable} (h : Compat t1 t2) (hk : key t1 = key t2) :
    t1 = t2 := by
  obtain ⟨hs, hd, hty⟩ := h
  obtain ⟨s1, tn1, d1, ty1⟩ := t1
  obtain ⟨s2, tn2, d2, ty2⟩ := t2
  simp only at hs hd hty
  subst hty
  simp only [key, List.cons.injEq, and_true] at hk
  obtain ⟨hk1, hk2, hk3⟩ := hk
  subst hk2
  rcases isSome_eq_cases hs with ⟨h1, h2⟩ | ⟨a, b, h1, h2⟩ <;> subst h1 <;> subst h2 <;>
    rcases isSome_eq_cases hd with ⟨h3, h4⟩ | ⟨x, y, h3, h4⟩ <;> subst h3 <;> subst h4 <;>
    simp_all

/-! ### Claim theorems -/

/-- C1: for every dotted string consisting of exactly 2 or exactly 3
non-empty, dot-free segments joined by a dot, parsing it with
`SqlTable.from_string` succeeds and rendering the result with `sql`
gives back exactly the original string. -/
theorem C1_round_trip (parts : List PyStr)
    (hlen : parts.length = 2 ∨ parts.length = 3)
    (hseg : ∀ p ∈ parts, p ≠ [] ∧ '.' ∉ p) :
    Except.map SqlTable.sql (SqlTable.from_string (joinDot parts)) =
      .ok (joinDot parts) := by
  rcases hlen with h2 | h3
  · obtain ⟨a, b, rfl⟩ := List.length_eq_two.mp h2
    have ha := hseg a (by simp)
    have hb := hseg b (by simp)
    have hj : joinDot [a, b] = a ++ '.' :: b := rfl
    have hsplit : splitDot (joinDot [a, b]) = [a, b] := by
      rw [hj, splitDot_dot_append b ha.2, splitDot_no_dot hb.2]
    rw [from_string_two hsplit]
    simp [Except.map, SqlTable.sql]
  · obtain ⟨a, b, c, rfl⟩ := List.length_eq_three.mp h3
    have ha := hseg a (by simp)
    have hb := hseg b (by simp)
    have hc := hseg c (by simp)
    have hj : joinDot [a, b, c] = a ++ '.' :: (b ++ '.' :: c) := rfl
    have hsplit : splitDot (joinDot [a, b, c]) = [a, b, c] := by
      rw [hj, splitDot_dot_append (b ++ '.' :: c) ha.2,
        splitDot_dot_append c hb.2, splitDot_no_dot hc.2]
    rw [from_string_three hsplit]
    simp [Except.map, SqlTable.sql]

/-- Witness for C1 at the concrete input `s.t`. -/
theorem C1_round_trip_witness :
    Except.map SqlTable.sql (SqlTable.from_string (joinDot [pstr ("s"), pstr ("t")])) =
      .ok (joinDot [pstr ("s"), pstr ("t")]) :=
  C1_round_trip [pstr ("s"), pstr ("t")] (Or.inl rfl) (by decide)

/-- C5: `from_string` maps a 2-segment split to a schema-qualified table
(first segment the schema, second the table), a 3-segment split to a fully
qualified table (db, schema, table in order), and raises for every other
segment count. -/
theorem C5_from_string_cases (s : PyStr) :
    match splitDot s with
    | [a, b] => SqlTable.from_string s = .ok ⟨some a, b, none, .TABLE⟩
    | [d, sc, t] => SqlTable.from_string s = .ok ⟨some sc, t, some d, .TABLE⟩
    | _ => SqlTable.from_string s = .error (.runtimeError (invalidTableMsg s)) := by
  cases hs : splitDot s with
  | nil =>
    exact from_string_err
      (by rw [hs]; simp only [List.length_nil]; omega)
      (by rw [hs]; simp only [List.length_nil]; omega)
  | cons a l1 =>
    cases l1 with
    | nil =>
      exact from_string_err
        (by rw [hs]; simp only [List.length_cons, List.length_nil]; omega)
        (by rw [hs]; simp only [List.length_cons, List.length_nil]; omega)
    | cons b l2 =>
      cases l2 with
      | nil => exact from_string_two hs
      | cons c l3 =>
        cases l3 with
        | nil => exact from_string_three hs
        | cons d l4 =>
          exact from_string_err
            (by rw [hs]; simp only [List.length_cons]; omega)
            (by rw [hs]; simp only [List.length_cons]; omega)

/-- C2 counterexample: the input `"."` splits into two segments that are
both empty, so by the claim it should raise, yet `from_string` succeeds
(the code never checks segments for emptiness). -/
theorem C2_counterexample_dot :
    ¬ (isErr (SqlTable.from_string (pstr ("."))) = true ↔
        splitsInto23NonEmpty (pstr (".")) = false) := by decide

/-- C2 (amended): `from_string` raises the malformed-table-reference
error iff the input does not split on dots into exactly 2 or 3 segments
(segments may be empty), and the error message contains both accepted
forms and the literal offending input as substrings. -/
theorem C2_error_iff_and_message (s : PyStr) :
    (isErr (SqlTable.from_string s) = true ↔
      (splitDot s).length ≠ 2 ∧ (splitDot s).length ≠ 3) ∧
    (∀ msg, SqlTable.from_string s = .error (.runtimeError msg) →
      containsSub (pstr ("\x27<schema>.<table>\x27")) msg ∧
      containsSub (pstr ("\x27<db>.<schema>.<table>\x27")) msg ∧
      containsSub s msg) := by
  have hchar : ∀ msg, SqlTable.from_string s = .error (.runtimeError msg) →
      msg = invalidTableMsg s := by
    intro msg hmsg
    by_cases h2 : (splitDot s).length = 2
    · obtain ⟨a, b, hab⟩ := List.length_eq_two.mp h2
      rw [from_string_two hab] at hmsg
      cases hmsg
    · by_cases h3 : (splitDot s).length = 3
      · obtain ⟨a, b, c, habc⟩ := List.length_eq_three.mp h3
        rw [from_string_three habc] at hmsg
        cases hmsg
      · rw [from_string_err h2 h3] at hmsg
        injection hmsg with hmsg
        injection hmsg with hmsg
        exact hmsg.symm
  constructor
  · constructor
    · intro herr
      constructor
      · intro h2
        obtain ⟨a, b, hab⟩ := List.length_eq_two.mp h2
        rw [from_string_two hab] at herr
        simp [isErr] at herr
      · intro h3
        obtain ⟨a, b, c, habc⟩ := List.length_eq_three.mp h3
        rw [from_string_three habc] at herr
        simp [isErr] at herr
    · rintro ⟨h2, h3⟩
      rw [from_string_err h2 h3]
      rfl
  · intro msg hmsg
    have hm := hchar msg hmsg
    subst hm
    refine ⟨?_, ?_, ?_⟩
    · refine ⟨pstr ("Invalid input for a SQL table, expected form "),
        pstr (" or \x27<db>.<schema>.<table>\x27 but got: ") ++ s, ?_⟩
      have hsplitmsg :
          pstr ("Invalid input for a SQL table, expected form \x27<schema>.<table>\x27 or \x27<db>.<schema>.<table>\x27 but got: ") =
          pstr ("Invalid input for a SQL table, expected form ") ++
            pstr ("\x27<schema>.<table>\x27") ++
            pstr (" or \x27<db>.<schema>.<table>\x27 but got: ") := by decide
      rw [invalidTableMsg, hsplitmsg]
      simp [List.append_assoc]
    · refine ⟨pstr ("Invalid input for a SQL table, expected form \x27<schema>.<table>\x27 or "),
        pstr (" but got: ") ++ s, ?_⟩
      have hsplitmsg :
          pstr ("Invalid input for a SQL table, expected form \x27<schema>.<table>\x27 or \x27<db>.<schema>.<table>\x27 but got: ") =
          pstr ("Invalid input for a SQL table, expected form \x27<schema>.<table>\x27 or ") ++
            pstr ("\x27<db>.<schema>.<table>\x27") ++
            pstr (" but got: ") := by decide
      rw [invalidTableMsg, hsplitmsg]
      simp [List.append_assoc]
    · exact ⟨pstr ("Invalid input for a SQL table, expected form \x27<schema>.<table>\x27 or \x27<db>.<schema>.<table>\x27 but got: "),
        [], by simp [invalidTableMsg]⟩

/-- Witness for C2 at the concrete 1-segment input `x`, whose error
message contains both accepted forms and the input itself. -/
theorem C2_error_message_witness :
    containsSub (pstr ("\x27<schema>.<table>\x27")) (invalidTableMsg (pstr ("x"))) ∧
    containsSub (pstr ("\x27<db>.<schema>.<table>\x27")) (invalidTableMsg (pstr ("x"))) ∧
    containsSub (pstr ("x")) (invalidTableMsg (pstr ("x"))) :=
  (C2_error_iff_and_message (pstr ("x"))).2 (invalidTableMsg (pstr ("x"))) (by decide)

/-- C4: constructing with `db_name` present and `schema_name` absent always
fails with the `ValueError` from `__post_init__`, at construction time; and
every table a constructor returns satisfies the invariant that a present
`db_name` comes with a present `schema_name`. -/
theorem C4_invariant_enforced (tn d : PyStr) (ty : SqlTableType) :
    (∃ msg, SqlTable.make none tn (some d) ty = .error (.valueError msg)) ∧
    (∀ s tb db tyx t, SqlTable.make s tb db tyx = .ok t →
      t.db_name ≠ none → t.schema_name ≠ none) := by
  constructor
  · exact ⟨_, by rw [SqlTable.make, if_pos ⟨by simp, rfl⟩]⟩
  · intro s tb db tyx t h hdb
    obtain ⟨ht, hinv⟩ := make_ok_invariant h
    subst ht
    intro hs
    exact hinv ⟨hdb, hs⟩

/-- Witness for C4 at concrete field values. -/
theorem C4_invariant_witness :
    (∃ msg, SqlTable.make none (pstr ("t")) (some (pstr ("d"))) .TABLE =
      .error (.valueError msg)) ∧
    (⟨some ['s'], ['t'], some ['d'], .TABLE⟩ : SqlTable).schema_name ≠ none :=
  ⟨(C4_invariant_enforced (pstr ("t")) (pstr ("d")) .TABLE).1,
   (C4_invariant_enforced (pstr ("t")) (pstr ("d")) .TABLE).2
     (some ['s']) ['t'] (some ['d']) .TABLE
     ⟨some ['s'], ['t'], some ['d'], .TABLE⟩ (by decide) (by decide)⟩

/-- C9: the dataclass equality compares exactly the field tuple, so two
tables are equal iff all four fields agree, independently of how each was
produced (the constructors all return plain field records). -/
theorem C9_value_equality (t1 t2 : SqlTable) :
    (pyEq t1 t2 = true ↔
      t1.schema_name = t2.schema_name ∧ t1.table_name = t2.table_name ∧
      t1.db_name = t2.db_name ∧ t1.table_type = t2.table_type) ∧
    (pyEq t1 t2 = true ↔ t1 = t2) := by
  obtain ⟨s1, tn1, d1, ty1⟩ := t1
  obtain ⟨s2, tn2, d2, ty2⟩ := t2
  simp [pyEq, and_assoc]

/-- C10: every table produced by `from_string` or by `from_node_relation`
has `table_type = TABLE` (the dataclass default); neither constructor can
produce a `VIEW`. -/
theorem C10_always_table_type :
    (∀ s t, SqlTable.from_string s = .ok t → t.table_type = .TABLE) ∧
    (∀ nr t, SqlTable.from_node_relation nr = .ok t → t.table_type = .TABLE) :=
  ⟨fun _ _ h => from_string_ok_type h, fun _ _ h => from_node_relation_ok_type h⟩

/-- Witness for C10 on a parsed string and an identifier-only descriptor. -/
theorem C10_always_table_type_witness :
    (⟨some ['a'], ['b'], none, .TABLE⟩ : SqlTable).table_type = .TABLE ∧
    (⟨none, ['t'], none, .TABLE⟩ : SqlTable).table_type = .TABLE :=
  ⟨C10_always_table_type.1 (pstr ("a.b")) _ (by decide),
   C10_always_table_type.2 ⟨none, none, none, none, none, none, none, some ['t']⟩ _
     (by decide)⟩

/-- C6: when the descriptor's `relation_name` attribute contains a dot,
`from_node_relation` is exactly `from_string` of that `relation_name`,
whatever the other fields hold. -/
theorem C6_qualified_precedence (nr : NodeRelation) (s : PyStr)
    (hrel : nr.relation_name = some s) (hdot : s.contains '.' = true) :
    SqlTable.from_node_relation nr = SqlTable.from_string s := by
  have hne : s.isEmpty = false := by
    cases s with
    | nil => simp at hdot
    | cons _ _ => rfl
  have hrn : nr.relName = s := by
    simp [NodeRelation.relName, pyOrStr, pyOr, truthy, hrel, hne]
  have hmem : '.' ∈ s := by simpa using hdot
  unfold SqlTable.from_node_relation
  rw [hrn]
  simp [hmem]

/-- Witness for C6: the spec example with conflicting other fields. -/
theorem C6_qualified_precedence_witness :
    SqlTable.from_node_relation
      ⟨some (pstr ("mydb.myschema.mytable")), some (pstr ("otherschema")), none,
       some (pstr ("otherdb")), none, none, some (pstr ("otheralias")), none⟩ =
      .ok ⟨some (pstr ("myschema")), pstr ("mytable"), some (pstr ("mydb")), .TABLE⟩ := by
  rw [C6_qualified_precedence _ (pstr ("mydb.myschema.mytable")) rfl (by decide)]
  decide

/-- C7: when the (defaulted) `relation_name` is dot-free, the adapter
assembles by descending completeness — db, schema and identifier all
truthy give a 3-part table, else schema and identifier a 2-part table,
else a truthy identifier alone an unqualified table — where an
empty-string field counts as absent (falsy). -/
theorem C7_best_effort_assembly (nr : NodeRelation)
    (hdot : nr.relName.contains '.' = false) :
    (truthy nr.dbF = true → truthy nr.schemaF = true → truthy nr.idF = true →
      SqlTable.from_node_relation nr =
        .ok ⟨nr.schemaF, nr.idF.getD [], nr.dbF, .TABLE⟩) ∧
    (truthy nr.dbF = false → truthy nr.schemaF = true → truthy nr.idF = true →
      SqlTable.from_node_relation nr =
        .ok ⟨nr.schemaF, nr.idF.getD [], none, .TABLE⟩) ∧
    (truthy nr.schemaF = false → truthy nr.idF = true →
      SqlTable.from_node_relation nr =
        .ok ⟨none, nr.idF.getD [], none, .TABLE⟩) := by
  refine ⟨?_, ?_, ?_⟩
  · intro hd hs hi
    obtain ⟨sv, hsv, _⟩ := truthy_some hs
    unfold SqlTable.from_node_relation
    simp only [hdot, hd, hs, hi, Bool.false_eq_true, if_false, Bool.and_self,
      Bool.and_true, Bool.true_and, if_true]
    rw [hsv]
    exact make_ok_of_schema_some sv (nr.idF.getD []) nr.dbF .TABLE
  · intro hd hs hi
    obtain ⟨sv, hsv, _⟩ := truthy_some hs
    unfold SqlTable.from_node_relation
    simp only [hdot, hd, hs, hi, Bool.false_eq_true, if_false, Bool.false_and,
      Bool.and_true, Bool.true_and, if_true]
    rw [hsv]
    exact make_ok_of_schema_some sv (nr.idF.getD []) none .TABLE
  · intro hs hi
    unfold SqlTable.from_node_relation
    simp only [hdot, hs, hi, Bool.false_eq_true, if_false, Bool.and_false,
      Bool.false_and, Bool.and_true, Bool.true_and, if_true]
    exact make_ok_of_db_none none (nr.idF.getD []) .TABLE

/-- Witness for C7: the two spec examples — empty `relation_name` with
`schema` and `alias` set, and an identifier-only descriptor. -/
theorem C7_best_effort_assembly_witness :
    SqlTable.from_node_relation
      ⟨some [], none, some ['s'], none, none, none, some ['t'], none⟩ =
      .ok ⟨some ['s'], ['t'], none, .TABLE⟩ ∧
    SqlTable.from_node_relation
      ⟨none, none, none, none, none, none, none, some ['t']⟩ =
      .ok ⟨none, ['t'], none, .TABLE⟩ := by
  constructor
  · have h := (C7_best_effort_assembly
      ⟨some [], none, some ['s'], none, none, none, some ['t'], none⟩
      (by decide)).2.1 (by decide) (by decide) (by decide)
    exact h.trans (by decide)
  · have h := (C7_best_effort_assembly
      ⟨none, none, none, none, none, none, none, some ['t']⟩
      (by decide)).2.2 (by decide) (by decide)
    exact h.trans (by decide)

/-! ### Failure characterization of the adapter -/

theorem from_node_relation_dotted {nr : NodeRelation}
    (hdot : nr.relName.contains '.' = true) :
    SqlTable.from_node_relation nr = SqlTable.from_string nr.relName := by
  unfold SqlTable.from_node_relation
  rw [if_pos hdot]

theorem from_node_relation_ok_of_id_truthy {nr : NodeRelation}
    (hdot : nr.relName.contains '.' = false) (hid : truthy nr.idF = true) :
    isErr (SqlTable.from_node_relation nr) = false := by
  unfold SqlTable.from_node_relation
  rw [if_neg (by rw [hdot]; simp)]
  by_cases hdb : truthy nr.dbF = true
  · by_cases hsc : truthy nr.schemaF = true
    · rw [if_pos (by simp [hdb, hsc, hid])]
      obtain ⟨sv, hsv, _⟩ := truthy_some hsc
      rw [hsv, make_ok_of_schema_some]
      rfl
    · have hsc' : truthy nr.schemaF = false := by
        rw [Bool.not_eq_true] at hsc
        exact hsc
      rw [if_neg (by rw [hsc']; simp), if_neg (by rw [hsc']; simp), if_pos hid,
        make_ok_of_db_none]
      rfl
  · have hdb' : truthy nr.dbF = false := by
      rw [Bool.not_eq_true] at hdb
      exact hdb
    rw [if_neg (by rw [hdb']; simp)]
    by_cases hsc : truthy nr.schemaF = true
    · rw [if_pos (by simp [hsc, hid])]
      obtain ⟨sv, hsv, _⟩ := truthy_some hsc
      rw [hsv, make_ok_of_schema_some]
      rfl
    · have hsc' : truthy nr.schemaF = false := by
        rw [Bool.not_eq_true] at hsc
        exact hsc
      rw [if_neg (by rw [hsc']; simp), if_pos hid, make_ok_of_db_none]
      rfl

theorem from_node_relation_fallback {nr : NodeRelation}
    (hdot : nr.relName.contains '.' = false) (hid : truthy nr.idF = false) :
    SqlTable.from_node_relation nr = SqlTable.from_string nr.relName := by
  unfold SqlTable.from_node_relation
  rw [if_neg (by rw [hdot]; simp), if_neg (by rw [hid]; simp),
    if_neg (by rw [hid]; simp), if_neg (by rw [hid]; simp)]

/-- C8 counterexample: the descriptor has a usable non-empty identifier
alternative (`alias` set to `t`), yet `from_node_relation` fails because
the dotted `relation_name` `a.b.c.d` is handed to `from_string`, which
rejects it — contradicting the claim that failure happens only when no
non-empty identifier alternative exists. -/
theorem C8_counterexample_dotted_invalid :
    truthy (NodeRelation.idF
      ⟨some (pstr ("a.b.c.d")), none, none, none, none, none, some ['t'], none⟩) = true ∧
    isErr (SqlTable.from_node_relation
      ⟨some (pstr ("a.b.c.d")), none, none, none, none, none, some ['t'], none⟩) = true := by
  decide

/-- C8 (amended): `from_node_relation` fails iff either the defaulted
`relation_name` contains a dot and `from_string` rejects it, or it is
dot-free and every identifier alternative is absent or empty; in every
failure the result is the delegated `from_string` error on the defaulted
`relation_name`. -/
theorem C8_failure_characterization (nr : NodeRelation) :
    (isErr (SqlTable.from_node_relation nr) = true ↔
      ((nr.relName.contains '.' = true ∧
        isErr (SqlTable.from_string nr.relName) = true) ∨
       (nr.relName.contains '.' = false ∧ truthy nr.idF = false))) ∧
    (isErr (SqlTable.from_node_relation nr) = true →
      SqlTable.from_node_relation nr = SqlTable.from_string nr.relName) := by
  by_cases hdot : nr.relName.contains '.' = true
  · have heq := from_node_relation_dotted hdot
    refine ⟨⟨fun herr => Or.inl ⟨hdot, by rw [← heq]; exact herr⟩, ?_⟩, fun _ => heq⟩
    rintro (⟨_, herr⟩ | ⟨hfalse, _⟩)
    · rw [heq]
      exact herr
    · rw [hdot] at hfalse
      cases hfalse
  · have hdot' : nr.relName.contains '.' = false := by
      rw [Bool.not_eq_true] at hdot
      exact hdot
    by_cases hid : truthy nr.idF = true
    · have hok := from_node_relation_ok_of_id_truthy hdot' hid
      refine ⟨⟨fun herr => ?_, ?_⟩, fun herr => ?_⟩
      · rw [hok] at herr
        cases herr
      · rintro (⟨hd, _⟩ | ⟨_, hf⟩)
        · rw [hdot'] at hd
          cases hd
        · rw [hid] at hf
          cases hf
      · rw [hok] at herr
        cases herr
    · have hid' : truthy nr.idF = false := by
        rw [Bool.not_eq_true] at hid
        exact hid
      have heq := from_node_relation_fallback hdot' hid'
      have hrn := relName_empty_of_id_falsy hid'
      refine ⟨⟨fun _ => Or.inr ⟨hdot', hid'⟩, fun _ => ?_⟩, fun _ => heq⟩
      rw [heq, hrn]
      decide

/-- Witness for C8 on the all-absent descriptor: the failure is exactly the
delegated `from_string` error on the defaulted (empty) `relation_name`. -/
theorem C8_failure_witness :
    SqlTable.from_node_relation ⟨none, none, none, none, none, none, none, none⟩ =
      SqlTable.from_string
        (NodeRelation.relName ⟨none, none, none, none, none, none, none, none⟩) :=
  (C8_failure_characterization ⟨none, none, none, none, none, none, none, none⟩).2
    (by decide)

/-- C3 counterexample: two distinct constructible tables whose comparison
raises `TypeError` (absent `schema_name` versus present), so the
comparison is neither defined for all distinct pairs nor sorts absent
before present. -/
theorem C3_counterexample_incomparable :
    pyLt ⟨none, ['t'], none, .TABLE⟩ ⟨some ['a'], ['t'], none, .TABLE⟩ = .error () ∧
    (⟨none, ['t'], none, .TABLE⟩ : SqlTable) ≠ ⟨some ['a'], ['t'], none, .TABLE⟩ :=
  ⟨rfl, by decide⟩

/-- C3 (amended): the dataclass comparison inspects the field tuple
`(schema_name, table_name, db_name, table_type)` in declaration order, but
is only defined when the first differing field compares two strings; on
tables with the same presence pattern for the optional fields and the same
table type it is a strict total order: irreflexive, defined, total on
distinct elements, asymmetric, and transitive. -/
theorem C3_strict_order_on_compatible (t1 t2 t3 : SqlTable)
    (h12 : Compat t1 t2) (h23 : Compat t2 t3) :
    pyLt t1 t1 = .ok false ∧
    (∃ b, pyLt t1 t2 = .ok b) ∧
    (t1 ≠ t2 → (pyLt t1 t2 = .ok true ∨ pyLt t2 t1 = .ok true)) ∧
    ¬(pyLt t1 t2 = .ok true ∧ pyLt t2 t1 = .ok true) ∧
    (pyLt t1 t2 = .ok true → pyLt t2 t3 = .ok true → pyLt t1 t3 = .ok true) := by
  have e11 := pyLt_compat (compat_refl t1)
  have e12 := pyLt_compat h12
  have e21 := pyLt_compat (compat_symm h12)
  have e23 := pyLt_compat h23
  have e13 := pyLt_compat (compat_trans h12 h23)
  refine ⟨?_, ⟨_, e12⟩, ?_, ?_, ?_⟩
  · rw [e11, pyListLt_irrefl]
  · intro hne
    cases hb : pyListLt (key t1) (key t2) with
    | true => exact Or.inl (by rw [e12, hb])
    | false =>
      cases hb2 : pyListLt (key t2) (key t1) with
      | true => exact Or.inr (by rw [e21, hb2])
      | false => exact absurd (key_inj h12 (pyListLt_conn _ _ hb hb2)) hne
  · rintro ⟨ha, hb⟩
    rw [e12] at ha
    rw [e21] at hb
    injection ha with ha
    injection hb with hb
    have hx := pyListLt_asymm _ _ ha
    rw [hx] at hb
    cases hb
  · intro hab hbc
    rw [e12] at hab
    rw [e23] at hbc
    rw [e13]
    injection hab with hab
    injection hbc with hbc
    rw [pyListLt_trans _ _ _ hab hbc]

/-- Witness for C3 on three compatible tables ordered by schema name. -/
theorem C3_strict_order_witness :
    pyLt ⟨some ['a'], ['t'], none, .TABLE⟩ ⟨some ['c'], ['t'], none, .TABLE⟩ = .ok true :=
  (C3_strict_order_on_compatible
    ⟨some ['a'], ['t'], none, .TABLE⟩
    ⟨some ['b'], ['t'], none, .TABLE⟩
    ⟨some ['c'], ['t'], none, .TABLE⟩
    ⟨rfl, rfl, rfl⟩ ⟨rfl, rfl, rfl⟩).2.2.2.2 (by decide) (by decide)
